import Mathlib

/-!
Shallow embedding of the data aggregation pipelines of `src/app.py`
(the "drug-uk" Streamlit presentation).

Two pipelines are modelled:

* the incident ranking aggregator (app.py lines 896-932):
    location_totals = df_incidents.groupby("Location")["Count"].sum().sort_values(ascending=True)
    top_locations   = location_totals.tail(20).index.tolist()
    df_filtered     = df_incidents[df_incidents["Location"].isin(top_locations)]
    grand total     = df_incidents["Count"].sum()   (the chart title)

* the comparative commodity table builder (app.py lines 746-772):
    a fixed 10-row base table, an optional extra "Illicit Drugs" row gated by
    the session-state boolean `reveal_drug_market`, then
    df_imports.sort_values("Value", ascending=False).

pandas semantics captured by the embedding:

* `groupby` with its default `sort=True` emits one group per distinct key,
  in lexicographically sorted key order (codepoint order on strings, which
  `·.data ≤ ·.data` over `List Char` models);
* `Series.sort_values(ascending=True)` (default `kind='quicksort'`, numpy
  introsort) is modelled as a stable ascending sort, `List.insertionSort`.
  The real sort agrees with this model exactly on arrays of at most 16
  elements, where numpy runs plain insertion sort (stable); above that
  cutoff introsort gives NO tie-order guarantee. Accordingly, every theorem
  below about the incident ranking is either invariant under how equal
  totals are arranged (lengths, membership, sortedness by total, sums,
  nodup, filtering), or — the one tie-order statement,
  `location_totals_tie_alphabetical` — carries an explicit hypothesis
  restricting it to at most 16 distinct locations, the regime where the
  stable model is exact;
* `sort_values(ascending=False)` is implemented by pandas as the REVERSE of
  the ascending argsort (`nargsort` computes the ascending indexer and then
  reverses it), so it is modelled as `List.reverse` of the stable ascending
  sort — in particular equal values come out in reversed insertion order;
* `tail(20)` keeps the last `min(20, n)` entries, i.e. `List.drop (n - 20)`;
* `isin` filtering keeps matching rows in their original order.

Counts are natural numbers (the data model requires `count : integer ≥ 0`).
Commodity values are exact rationals written as `mkRat v 10`: every value in
the source table has a single decimal digit (`mkRat 87 10 = 8.7`), and all
comparisons among such literals agree between IEEE doubles and exact
rationals, so ℚ is a faithful model of the Python floats.
-/

/-- One row of the incident CSV: `Location`, `Category`, `Count`. -/
structure IncidentRecord where
  location : String
  category : String
  count : Nat
deriving DecidableEq

/-- Lexicographic (codepoint) order on strings: Python's string comparison,
which pandas uses when sorting `groupby` keys. -/
def strLe (a b : String) : Prop := a.data ≤ b.data

instance : DecidableRel strLe :=
  fun a b => inferInstanceAs (Decidable (a.data ≤ b.data))

instance : IsTotal String strLe := ⟨fun a b => le_total a.data b.data⟩

instance : IsTrans String strLe := ⟨fun _ _ _ h h' => le_trans h h'⟩

/-- The distinct locations of the input, in sorted order: the group keys
produced by `df_incidents.groupby("Location")` (default `sort=True`). -/
def groupKeys (df : List IncidentRecord) : List String :=
  List.insertionSort strLe (df.map (·.location)).dedup

/-- The summed `Count` of the group of records at location `l`:
one entry of `df_incidents.groupby("Location")["Count"].sum()`. -/
def locTotal (df : List IncidentRecord) (l : String) : Nat :=
  ((df.filter (fun r => r.location == l)).map (·.count)).sum

instance : DecidableRel (fun a b : String × Nat => a.2 ≤ b.2) :=
  fun a b => inferInstanceAs (Decidable (a.2 ≤ b.2))

instance : IsTotal (String × Nat) (fun a b => a.2 ≤ b.2) :=
  ⟨fun a b => Nat.le_total a.2 b.2⟩

instance : IsTrans (String × Nat) (fun a b => a.2 ≤ b.2) :=
  ⟨fun _ _ _ => Nat.le_trans⟩

/-- `location_totals = df_incidents.groupby("Location")["Count"].sum().sort_values(ascending=True)`:
the per-location totals, grouped in sorted key order, then sorted by total
ascending (app.py line 899). The stable `insertionSort` coincides with the
program's sort for at most 16 groups (numpy's insertion-sort regime) and is
one admissible arrangement of ties beyond that; no theorem below relies on
the tie order outside an explicit at-most-16-groups hypothesis. -/
def location_totals (df : List IncidentRecord) : List (String × Nat) :=
  List.insertionSort (fun a b => a.2 ≤ b.2)
    ((groupKeys df).map (fun l => (l, locTotal df l)))

/-- `top_locations = location_totals.tail(20).index.tolist()` (app.py line 902):
the last `min(20, n)` locations of the ascending ranking. -/
def top_locations (df : List IncidentRecord) : List String :=
  ((location_totals df).drop ((location_totals df).length - 20)).map Prod.fst

/-- `df_filtered = df_incidents[df_incidents["Location"].isin(top_locations)]`
(app.py line 905): the original rows whose location survives, in order. -/
def df_filtered (df : List IncidentRecord) : List IncidentRecord :=
  df.filter (fun r => decide (r.location ∈ top_locations df))

/-- `df_incidents["Count"].sum()`: the chart-title grand total over the
original, unfiltered input (app.py line 928). -/
def grandTotal (df : List IncidentRecord) : Nat :=
  (df.map (·.count)).sum

/-- The number of distinct locations appearing in the input. -/
def distinctLocationCount (df : List IncidentRecord) : Nat :=
  (df.map (·.location)).dedup.length

/-- One row of the commodity table: `Commodity`, `Value` (£ billions),
`Type` (`"Legal"` or `"Illegal"`). -/
structure CommodityRow where
  commodity : String
  value : ℚ
  type_ : String
deriving DecidableEq

/-- The fixed 10-row base table `import_data` (app.py lines 750-761);
`mkRat v 10` writes the source's one-decimal float `v/10` exactly. -/
def import_data : List CommodityRow :=
  [⟨"Mineral Fuels", mkRat 87 10, "Legal"⟩,
   ⟨"Mechanical Appliances", mkRat 64 10, "Legal"⟩,
   ⟨"Electronic Equipment", mkRat 53 10, "Legal"⟩,
   ⟨"Precious Metals", mkRat 42 10, "Legal"⟩,
   ⟨"Motor Vehicles", mkRat 41 10, "Legal"⟩,
   ⟨"Pharmaceuticals", mkRat 20 10, "Legal"⟩,
   ⟨"Other Products", mkRat 16 10, "Legal"⟩,
   ⟨"Plastics", mkRat 15 10, "Legal"⟩,
   ⟨"Measuring Devices", mkRat 13 10, "Legal"⟩,
   ⟨"Knitwear", mkRat 13 10, "Legal"⟩]

/-- The extra row appended when the reveal flag is set (app.py line 768). -/
def revealRow : CommodityRow := ⟨"Illicit Drugs", mkRat 94 10, "Illegal"⟩

instance : DecidableRel (fun a b : CommodityRow => a.value ≤ b.value) :=
  fun a b => inferInstanceAs (Decidable (a.value ≤ b.value))

/-- `df.sort_values("Value", ascending=False)` (app.py line 772): pandas
computes the ascending argsort (stable at these sizes) and reverses it. -/
def sortValuesDesc (rows : List CommodityRow) : List CommodityRow :=
  (List.insertionSort (fun a b => a.value ≤ b.value) rows).reverse

/-- The comparative table for a given reveal flag (app.py lines 763-772):
base table, plus the illicit row when revealed, sorted descending by value. -/
def df_imports (revealed : Bool) : List CommodityRow :=
  sortValuesDesc (if revealed then import_data ++ [revealRow] else import_data)

/-- `st.session_state['reveal_drug_market']` starts out `False`
(app.py lines 746-747). -/
def initial_reveal_drug_market : Bool := false

/-- The reveal button sets the flag to `True` (app.py lines 839-841). -/
def revealAction (_ : Bool) : Bool := true

/-- The reset button sets the flag back to `False` (app.py lines 843-845). -/
def resetAction (_ : Bool) : Bool := false

/-- The worked example input of the specification:
`[("A","Noise",3), ("B","Youths",10), ("A","Smoking",2)]`. -/
def exDf : List IncidentRecord :=
  [⟨"A", "Noise", 3⟩, ⟨"B", "Youths", 10⟩, ⟨"A", "Smoking", 2⟩]

/-- A two-record input whose first-seen location order (`B` then `A`)
disagrees with alphabetical order, with equal totals. -/
def exTie : List IncidentRecord :=
  [⟨"B", "Noise", 1⟩, ⟨"A", "Noise", 1⟩]

theorem strLe_antisymm {a b : String} (h : strLe a b) (h' : strLe b a) : a = b := by
  cases a; cases b
  exact congrArg String.mk (le_antisymm h h')

/-- The `import_data` values are the decimal literals of the source. -/
theorem import_data_values :
    import_data.map (·.value) =
      [8.7, 6.4, 5.3, 4.2, 4.1, 2.0, 1.6, 1.5, 1.3, 1.3] ∧
    revealRow.value = 9.4 := by
  simp only [import_data, revealRow, List.map_cons, List.map_nil, Rat.mkRat_eq_div]
  norm_num

theorem mem_location_totals {df : List IncidentRecord} {p : String × Nat} :
    p ∈ location_totals df ↔
      p ∈ (groupKeys df).map (fun l => (l, locTotal df l)) := by
  simp [location_totals, List.mem_insertionSort]

theorem snd_of_mem_location_totals {df : List IncidentRecord} {p : String × Nat}
    (hp : p ∈ location_totals df) : p.2 = locTotal df p.1 := by
  obtain ⟨l, _, rfl⟩ := List.mem_map.mp (mem_location_totals.mp hp)
  rfl

theorem location_totals_length (df : List IncidentRecord) :
    (location_totals df).length = distinctLocationCount df := by
  simp [location_totals, groupKeys, List.length_insertionSort,
    distinctLocationCount]

theorem location_totals_sorted (df : List IncidentRecord) :
    (location_totals df).Pairwise (fun a b => a.2 ≤ b.2) :=
  List.sorted_insertionSort _ _

theorem fst_location_totals_perm (df : List IncidentRecord) :
    List.Perm ((location_totals df).map Prod.fst) (groupKeys df) := by
  have h := (List.perm_insertionSort (fun a b : String × Nat => a.2 ≤ b.2)
      ((groupKeys df).map (fun l => (l, locTotal df l)))).map Prod.fst
  rw [List.map_map] at h
  simpa [location_totals, Function.comp_def] using h

theorem groupKeys_nodup (df : List IncidentRecord) : (groupKeys df).Nodup :=
  ((List.perm_insertionSort strLe _).nodup_iff).mpr (List.nodup_dedup _)

theorem mem_groupKeys {df : List IncidentRecord} {l : String} :
    l ∈ groupKeys df ↔ ∃ r ∈ df, r.location = l := by
  simp [groupKeys, List.mem_insertionSort, List.mem_dedup, List.mem_map]

/-- C9: on an empty (but successfully loaded) incident table the ranking
aggregator degrades to empty outputs — empty totals, empty top-location set,
empty filtered table, grand total 0 — instead of failing. -/
theorem aggregator_empty_input :
    location_totals [] = [] ∧ top_locations [] = [] ∧ df_filtered [] = [] ∧
      grandTotal [] = 0 := by
  decide

/-- C6: with the reveal flag off the commodity table has exactly 10 rows and
no Illegal row; with it on, exactly 11 rows of which exactly one is Illegal,
namely "Illicit Drugs" at value 9.4. -/
theorem df_imports_row_counts :
    (df_imports false).length = 10 ∧
    (df_imports false).filter (fun row => row.type_ == "Illegal") = [] ∧
    (df_imports true).length = 11 ∧
    (df_imports true).filter (fun row => row.type_ == "Illegal") = [revealRow] ∧
    revealRow.commodity = "Illicit Drugs" ∧ revealRow.value = 9.4 := by
  refine ⟨by decide, by decide, by decide, by decide, rfl, ?_⟩
  simp only [revealRow, Rat.mkRat_eq_div]
  norm_num

/-- C7 counterexample: in the code's descending table the two rows tied at
value 1.3 appear with "Knitwear" BEFORE "Measuring Devices" — pandas'
descending sort reverses the stable ascending order, so the claim's stable
tie-break (Measuring Devices first) does not hold. -/
theorem df_imports_tie_order_reversed :
    "Knitwear" ∈ (df_imports false).map (·.commodity) ∧
    "Measuring Devices" ∈ (df_imports false).map (·.commodity) ∧
    ((df_imports false).map (·.commodity)).indexOf "Knitwear" <
      ((df_imports false).map (·.commodity)).indexOf "Measuring Devices" := by
  decide

/-- C7 amended: the output is always sorted descending by value, but ties
appear in REVERSED insertion order (the descending sort is the reverse of a
stable ascending sort), so "Knitwear" immediately precedes "Measuring
Devices"; with the flag on the first row is the Illicit Drugs row (9.4
exceeds the largest legal value 8.7), with it off the first row is
"Mineral Fuels". -/
theorem df_imports_sorted_desc :
    (df_imports false).Pairwise (fun a b => b.value ≤ a.value) ∧
    (df_imports true).Pairwise (fun a b => b.value ≤ a.value) ∧
    ((df_imports false).map (·.commodity)).indexOf "Knitwear" + 1 =
      ((df_imports false).map (·.commodity)).indexOf "Measuring Devices" ∧
    (df_imports true).head? = some revealRow ∧
    (df_imports false).head? = some ⟨"Mineral Fuels", mkRat 87 10, "Legal"⟩ := by
  decide

/-- C1: the top-location list has length `min(20, #distinct locations)` and
is ordered ascending by each location's summed count total. -/
theorem top_locations_length_and_ascending (df : List IncidentRecord) :
    (top_locations df).length = min 20 (distinctLocationCount df) ∧
    (top_locations df).Pairwise (fun x y => locTotal df x ≤ locTotal df y) := by
  constructor
  · have hn := location_totals_length df
    simp only [top_locations, List.length_map, List.length_drop]
    omega
  · have hs : (location_totals df).Pairwise
        (fun a b : String × Nat => locTotal df a.1 ≤ locTotal df b.1) := by
      refine (location_totals_sorted df).imp_of_mem ?_
      intro a b ha hb hab
      rw [← snd_of_mem_location_totals ha, ← snd_of_mem_location_totals hb]
      exact hab
    exact List.pairwise_map.mpr
      (List.Pairwise.sublist (List.drop_sublist _ _) hs)

/-- C3: the filtered table is a sublist of the input (original order, rows
untouched); it holds each record with exactly its original multiplicity when
the record's location is in the top set and not at all otherwise; and with at
most 20 distinct locations it is the whole input. -/
theorem df_filtered_characterization (df : List IncidentRecord) :
    List.Sublist (df_filtered df) df ∧
    (∀ r : IncidentRecord, (df_filtered df).count r =
        if r.location ∈ top_locations df then df.count r else 0) ∧
    (distinctLocationCount df ≤ 20 → df_filtered df = df) := by
  refine ⟨List.filter_sublist df, ?_, ?_⟩
  · intro r
    by_cases h : r.location ∈ top_locations df
    · rw [if_pos h]
      exact List.count_filter (by simpa using h)
    · rw [if_neg h]
      refine List.count_eq_zero.mpr fun hr => ?_
      exact h (by simpa using (List.mem_filter.mp hr).2)
  · intro h20
    refine List.filter_eq_self.mpr fun r hr => ?_
    simp only [decide_eq_true_eq]
    have hmem : r.location ∈ (location_totals df).map Prod.fst :=
      (fst_location_totals_perm df).mem_iff.mpr (mem_groupKeys.mpr ⟨r, hr, rfl⟩)
    have hdrop : (location_totals df).length - 20 = 0 := by
      have := location_totals_length df; omega
    simpa [top_locations, hdrop] using hmem

/-- C3 witness: on the specification's worked example (two distinct
locations, hence at most 20) the filtered table is the input itself. -/
theorem df_filtered_characterization_witness :
    distinctLocationCount exDf ≤ 20 ∧ df_filtered exDf = exDf :=
  ⟨by decide, (df_filtered_characterization exDf).2.2 (by decide)⟩

/-- C10: the top-location list never repeats a name, each of its names is the
location of some input record, and therefore a non-empty top set yields a
non-empty filtered table. -/
theorem top_locations_invariants (df : List IncidentRecord) :
    (top_locations df).Nodup ∧
    (∀ l ∈ top_locations df, ∃ r ∈ df, r.location = l) ∧
    (top_locations df ≠ [] → df_filtered df ≠ []) := by
  have hfst : ((location_totals df).map Prod.fst).Nodup :=
    (fst_location_totals_perm df).nodup_iff.mpr (groupKeys_nodup df)
  have hsub : List.Sublist (top_locations df) ((location_totals df).map Prod.fst) := by
    simp only [top_locations, List.map_drop]
    exact List.drop_sublist _ _
  have hloc : ∀ l ∈ top_locations df, ∃ r ∈ df, r.location = l := by
    intro l hl
    exact mem_groupKeys.mp
      ((fst_location_totals_perm df).mem_iff.mp (List.Sublist.mem hl hsub))
  refine ⟨List.Sublist.nodup hsub hfst, hloc, fun hne => ?_⟩
  obtain ⟨l, hl⟩ := List.exists_mem_of_ne_nil _ hne
  obtain ⟨r, hr, hrl⟩ := hloc l hl
  exact List.ne_nil_of_mem
    (List.mem_filter.mpr ⟨hr, by simpa [hrl] using hl⟩)

/-- C10 witness: on the worked example the top set is duplicate-free and
non-empty, and the filtered table is non-empty. -/
theorem top_locations_invariants_witness :
    (top_locations exDf).Nodup ∧ top_locations exDf ≠ [] ∧
      df_filtered exDf ≠ [] :=
  ⟨(top_locations_invariants exDf).1, by decide,
    (top_locations_invariants exDf).2.2 (by decide)⟩

/-- C2: the grand total is the count-sum of the ORIGINAL unfiltered input;
it splits as the filtered table's sum plus the discarded rows' sum, so the
top-20 truncation never changes it. -/
theorem grandTotal_full_input (df : List IncidentRecord) :
    grandTotal df = (df.map (·.count)).sum ∧
    grandTotal df = grandTotal (df_filtered df) +
      grandTotal (df.filter (fun r => !decide (r.location ∈ top_locations df))) := by
  refine ⟨rfl, ?_⟩
  have hperm := List.filter_append_perm
    (fun r => decide (r.location ∈ top_locations df)) df
  have hsum := (hperm.map (·.count)).sum_eq
  simp only [List.map_append, List.sum_append] at hsum
  simpa [grandTotal, df_filtered] using hsum.symm

theorem locTotal_cons (r : IncidentRecord) (df : List IncidentRecord) (l : String) :
    locTotal (r :: df) l = (if r.location = l then r.count else 0) + locTotal df l := by
  by_cases h : r.location = l
  · simp [locTotal, List.filter_cons, h]
  · simp [locTotal, List.filter_cons, h]

theorem sum_map_add_nat {α : Type} (l : List α) (f g : α → Nat) :
    (l.map (fun x => f x + g x)).sum = (l.map f).sum + (l.map g).sum := by
  induction l with
  | nil => rfl
  | cons a l ih => simp only [List.map_cons, List.sum_cons, ih]; omega

theorem sum_map_single_key (a : String) (c : Nat) (ks : List String) :
    ks.Nodup → a ∈ ks →
      (ks.map (fun k => if a = k then c else 0)).sum = c := by
  induction ks with
  | nil => intro _ ha; cases ha
  | cons k ks ih =>
    intro hnd ha
    by_cases hak : a = k
    · subst hak
      simp only [List.map_cons, List.sum_cons, if_pos rfl]
      have hz : ∀ x ∈ ks.map (fun k' => if a = k' then c else 0), x = 0 := by
        intro x hx
        obtain ⟨k', hk', rfl⟩ := List.mem_map.mp hx
        have hne : a ≠ k' := fun he => (List.nodup_cons.mp hnd).1 (he ▸ hk')
        simp [hne]
      rw [List.sum_eq_zero hz]
      simp
    · have ha' : a ∈ ks := by
        rcases List.mem_cons.mp ha with h | h
        · exact absurd h hak
        · exact h
      simp only [List.map_cons, List.sum_cons, if_neg hak]
      rw [ih (List.nodup_cons.mp hnd).2 ha']
      omega

theorem sum_locTotal_over_keys (df : List IncidentRecord) (ks : List String) :
    ks.Nodup → (∀ r ∈ df, r.location ∈ ks) →
      (ks.map (locTotal df)).sum = grandTotal df := by
  induction df with
  | nil =>
    intro _ _
    have hz : ∀ x ∈ ks.map (locTotal ([] : List IncidentRecord)), x = 0 := by
      intro x hx
      obtain ⟨k, _, rfl⟩ := List.mem_map.mp hx
      rfl
    rw [List.sum_eq_zero hz]
    rfl
  | cons r df ih =>
    intro hnd hcov
    have hcov' : ∀ r' ∈ df, r'.location ∈ ks :=
      fun r' h => hcov r' (List.mem_cons_of_mem _ h)
    have hr : r.location ∈ ks := hcov r (List.mem_cons_self _ _)
    have hmap : ks.map (locTotal (r :: df)) =
        ks.map (fun k => (if r.location = k then r.count else 0) + locTotal df k) :=
      List.map_congr_left fun k _ => locTotal_cons r df k
    rw [hmap, sum_map_add_nat, sum_map_single_key r.location r.count ks hnd hr,
      ih hnd hcov']
    simp only [grandTotal, List.map_cons, List.sum_cons]

/-- C5: conservation of mass — on any non-empty input the per-location
totals of the grouping step sum to the count-sum of the raw input. -/
theorem location_totals_conservation (df : List IncidentRecord) (_h : df ≠ []) :
    ((location_totals df).map Prod.snd).sum = grandTotal df := by
  have h1 := ((List.perm_insertionSort (fun a b : String × Nat => a.2 ≤ b.2)
      ((groupKeys df).map (fun l => (l, locTotal df l)))).map Prod.snd).sum_eq
  have h2 : (((groupKeys df).map (fun l => (l, locTotal df l))).map Prod.snd)
      = (groupKeys df).map (locTotal df) := by
    rw [List.map_map]
    rfl
  have h3 := ((List.perm_insertionSort strLe
      (df.map (·.location)).dedup).map (locTotal df)).sum_eq
  have h4 : ((df.map (·.location)).dedup.map (locTotal df)).sum = grandTotal df := by
    refine sum_locTotal_over_keys df _ (List.nodup_dedup _) ?_
    intro r hr
    exact List.mem_dedup.mpr (List.mem_map.mpr ⟨r, hr, rfl⟩)
  calc ((location_totals df).map Prod.snd).sum
      = (((groupKeys df).map (fun l => (l, locTotal df l))).map Prod.snd).sum := h1
    _ = ((groupKeys df).map (locTotal df)).sum := by rw [h2]
    _ = ((df.map (·.location)).dedup.map (locTotal df)).sum := h3
    _ = grandTotal df := h4

/-- C5 witness: the worked example is non-empty and its totals 5 and 10 sum
to the raw count-sum 15. -/
theorem location_totals_conservation_witness :
    exDf ≠ [] ∧ ((location_totals exDf).map Prod.snd).sum = grandTotal exDf :=
  ⟨by decide, location_totals_conservation exDf (by decide)⟩

theorem pair_sublist_of_pairwise {α : Type} {r : α → α → Prop}
    (hasym : ∀ a b, r a b → ¬ r b a) :
    ∀ {l : List α}, l.Pairwise r → ∀ {x y : α}, x ∈ l → y ∈ l → r x y →
      List.Sublist [x, y] l := by
  intro l
  induction l with
  | nil =>
    intro _ x y hx _ _
    cases hx
  | cons a l ih =>
    intro hp x y hx hy hxy
    rcases List.mem_cons.mp hx with rfl | hx'
    · have hy' : y ∈ l := by
        rcases List.mem_cons.mp hy with rfl | h
        · exact absurd hxy (hasym _ _ hxy)
        · exact h
      exact List.Sublist.cons₂ x (List.singleton_sublist.mpr hy')
    · have hy' : y ∈ l := by
        rcases List.mem_cons.mp hy with rfl | h
        · exact absurd ((List.pairwise_cons.mp hp).1 x hx') (hasym _ _ hxy)
        · exact h
      exact List.Sublist.cons a (ih (List.pairwise_cons.mp hp).2 hx' hy' hxy)

theorem groupKeys_pairwise_strict (df : List IncidentRecord) :
    (groupKeys df).Pairwise (fun a b => strLe a b ∧ a ≠ b) :=
  List.Pairwise.and (List.sorted_insertionSort strLe _) (groupKeys_nodup df)

theorem strLe_ne_asymm :
    ∀ a b : String, (strLe a b ∧ a ≠ b) → ¬ (strLe b a ∧ b ≠ a) :=
  fun _ _ hab hba => hab.2 (strLe_antisymm hab.1 hba.1)

/-- C4 counterexample: for the input `[("B","Noise",1), ("A","Noise",1)]`
both locations total 1 and the first-seen order is B then A, yet the ranking
lists A before B — `groupby` emits groups in sorted key order, not in the
input's native (first-seen) order. -/
theorem top_locations_tie_not_first_seen :
    locTotal exTie "A" = locTotal exTie "B" ∧
    top_locations exTie = ["A", "B"] ∧
    top_locations exTie ≠ ["B", "A"] := by
  decide

/-- C4 amended: ties are NOT ordered by first-seen input order; in the
regime where the program's sort is genuinely stable — at most 16 distinct
locations, where numpy's quicksort degenerates to insertion sort — equal-
total locations keep the grouping pass's order, which is sorted
(codepoint/alphabetical) key order: whenever x sorts strictly before y and
their totals agree, x is ranked before y. Above that cutoff the program
guarantees no tie order at all. -/
theorem location_totals_tie_alphabetical (df : List IncidentRecord)
    (_hsize : distinctLocationCount df ≤ 16)
    (x y : String) (hx : x ∈ df.map (·.location)) (hy : y ∈ df.map (·.location))
    (hne : x ≠ y) (hxy : strLe x y) (ht : locTotal df x = locTotal df y) :
    List.Sublist [(x, locTotal df x), (y, locTotal df y)] (location_totals df) := by
  have hgx : x ∈ groupKeys df := by
    simp only [groupKeys, List.mem_insertionSort]
    exact List.mem_dedup.mpr hx
  have hgy : y ∈ groupKeys df := by
    simp only [groupKeys, List.mem_insertionSort]
    exact List.mem_dedup.mpr hy
  have hkeys : List.Sublist [x, y] (groupKeys df) :=
    pair_sublist_of_pairwise strLe_ne_asymm (groupKeys_pairwise_strict df)
      hgx hgy ⟨hxy, hne⟩
  have hmap := hkeys.map (fun l => (l, locTotal df l))
  exact List.pair_sublist_insertionSort (le_of_eq ht) hmap

/-- C4 witness: the tie example has 2 ≤ 16 distinct locations, and on it
("A",1) is ranked directly before ("B",1). -/
theorem location_totals_tie_alphabetical_witness :
    distinctLocationCount exTie ≤ 16 ∧
      List.Sublist [("A", locTotal exTie "A"), ("B", locTotal exTie "B")]
        (location_totals exTie) :=
  ⟨by decide,
    location_totals_tie_alphabetical exTie (by decide) "A" "B" (by decide)
      (by decide) (by decide) (by decide) (by decide)⟩

/-- C8: the reveal flag starts false; the reveal action sets it true and is
idempotent; the reset action sets it false; and reveal–reset–reveal yields
the identical 11-row table produced by the first reveal, with no duplicated
commodity row. -/
theorem reveal_state_machine :
    initial_reveal_drug_market = false ∧
    (∀ s, revealAction s = true) ∧
    (∀ s, revealAction (revealAction s) = revealAction s) ∧
    (∀ s, resetAction s = false) ∧
    df_imports (revealAction (resetAction (revealAction initial_reveal_drug_market)))
      = df_imports (revealAction initial_reveal_drug_market) ∧
    (df_imports (revealAction initial_reveal_drug_market)).length = 11 ∧
    ((df_imports (revealAction initial_reveal_drug_market)).map (·.commodity)).Nodup := by
  exact ⟨rfl, fun _ => rfl, fun _ => rfl, fun _ => rfl, rfl, by decide, by decide⟩
